import Mathlib

/-!
Verification of the untildeath interpreter (src/python-interpreter/untildeath).

The development shallowly embeds the evaluation engine:
  * the runtime value model and canonical stringification (builtins.py),
  * the scope chain and the sequential statement/expression evaluator
    (interpreter.py), with the scope heap made explicit so that closures
    and scope restoration are modelled faithfully,
  * the pure collection builtins over an explicit heap of array/map cells
    (builtins.py), so that the non-mutation claims are meaningful,
  * the entity death-signalling state machine and the AND-composite
    lifecycle (entities.py) as labelled transition systems.

Machine integers of the host are arbitrary-precision in CPython, so Int is
used directly.  The host language detail that `bool` is a subclass of `int`
(so `isinstance(True, int)` holds) is modelled explicitly where the source
relies on `isinstance` checks.  IEEE-754 floats appear only in the
stringification claims and are modelled by their printed decimal form;
float arithmetic is outside this development, and the evaluator model
covers the float-free fragment of the value space.
-/

set_option maxRecDepth 10000

namespace Untildeath

mutual

/-- Runtime values (the dynamic tagged union of interpreter.py / builtins.py).
Python `None` is the Void value of the language.  Arrays and maps hold
their contents inline; the aliasing of collection objects is modelled
separately (see the HeapModel section).  A `rite` is a user function:
name, parameter list, body, and the scope-heap index of its captured
defining scope.  Builtins and entities are represented by their registry
names.  Floats are not part of the evaluator model (see module comment). -/
inductive Value where
  | void
  | bool (b : Bool)
  | int (n : Int)
  | str (s : String)
  | array (elems : List Value)
  | map (entries : List (String × Value))
  | rite (name : String) (params : List String) (body : List Stmt) (closure : Nat)
  | builtin (name : String)
  | entity (name : String)

/-- Expressions, from ast_nodes.py (the fragment consumed by the sequential
evaluator; entity expressions belong to the loop forms and are modelled in
the entity section). -/
inductive Expr where
  | lit (v : Value)
  | ident (name : String)
  | binaryOp (op : String) (left right : Expr)
  | unaryOp (op : String) (operand : Expr)
  | call (callee : Expr) (args : List Expr)
  | indexE (obj index : Expr)
  | member (obj : Expr) (name : String)
  | arrayLit (elems : List Expr)
  | mapLit (entries : List (String × Expr))

/-- Statements, from ast_nodes.py (the sequential fragment: the entity
statements Import/Bifurcate/AthLoop/Die drive the scheduler and are
modelled in the entity section). -/
inductive Stmt where
  | varDecl (name : String) (value : Expr)
  | constDecl (name : String) (value : Expr)
  | assignment (target : Expr) (value : Expr)
  | riteDef (name : String) (params : List String) (body : List Stmt)
  | conditional (cond : Expr) (thenB : List Stmt) (elseB : Option (List Stmt))
  | attemptSalvage (attemptBody : List Stmt) (errName : String) (salvageBody : List Stmt)
  | condemn (message : Expr)
  | bequeath (value : Option Expr)
  | exprStmt (e : Expr)

end

/-- Internal control-flow signals, from errors.py.  `rt` is RuntimeError,
`condemn` is CondemnError (a subclass of RuntimeError), `bequeath` is
BequeathError (a plain Exception, not a runtime error).  `host` stands for
a host-level Python exception (e.g. TypeError) escaping the evaluator,
which no language construct catches.  `fuel` marks exhaustion of the
step-count bound of this embedding and corresponds to no source event. -/
inductive Signal where
  | rt (msg : String)
  | condemn (msg : String)
  | bequeath (v : Value)
  | host (msg : String)
  | fuel

/-- Replace the value stored under a key in an insertion-ordered
association list, appending the pair when the key is absent.  This is the
update discipline of a CPython dict: an overwrite keeps the original
insertion position. -/
def setEntry (k : String) (v : Value) : List (String × Value) → List (String × Value)
  | [] => [(k, v)]
  | (k', v') :: rest => if k' = k then (k, v) :: rest else (k', v') :: setEntry k v rest

/-- First-match lookup in an association list (CPython dict read). -/
def lookupEntry (k : String) : List (String × Value) → Option Value
  | [] => none
  | (k', v') :: rest => if k' = k then some v' else lookupEntry k rest

/-- `isinstance(x, int)` of the host: CPython `bool` is a subclass of
`int`, so a Bool passes the check and contributes 0 or 1. -/
def pyIntOf : Value → Option Int
  | .int n => some n
  | .bool b => some (if b then 1 else 0)
  | _ => none

/-- `isinstance(x, (int, float))` of the host on the float-free fragment:
identical to pyIntOf because only Int and Bool values are numeric here. -/
def pyNumOf : Value → Option Int := pyIntOf

/-- is_truthy from builtins.py. -/
def is_truthy : Value → Bool
  | .void => false
  | .bool b => b
  | .int n => n != 0
  | .str s => s.length > 0
  | .array l => l.length > 0
  | .map m => m.length > 0
  | _ => true

/-- type_name from builtins.py (the bool check precedes the int check,
exactly as in the source, since a host bool would also pass the int
check). -/
def type_name : Value → String
  | .void => "VOID"
  | .bool _ => "BOOLEAN"
  | .int _ => "INTEGER"
  | .str _ => "STRING"
  | .array _ => "ARRAY"
  | .map _ => "MAP"
  | _ => "UNKNOWN"

mutual

/-- stringify from builtins.py: None, bool, list and dict are matched in
that order, every other value falls through to host str().  Host str() of
an int is its decimal form; of a str, the raw characters.  For rites,
builtins and entities the host prints a default object description with a
memory address, which is modelled by a stable tag.  The helper functions
spell out the comma-space join of the source. -/
def stringify : Value → String
  | .void => "VOID"
  | .bool b => if b then "ALIVE" else "DEAD"
  | .array l => "[" ++ stringifyList l ++ "]"
  | .map entries => "\x7b" ++ stringifyEntries entries ++ "\x7d"
  | .int n => toString n
  | .str s => s
  | .rite nm _ _ _ => "<rite " ++ nm ++ ">"
  | .builtin nm => "<builtin " ++ nm ++ ">"
  | .entity nm => "<entity " ++ nm ++ ">"

/-- The comma-space join of element strings used for arrays. -/
def stringifyList : List Value → String
  | [] => ""
  | [v] => stringify v
  | v :: rest => stringify v ++ ", " ++ stringifyList rest

/-- The comma-space join of "key: value" entry strings used for maps. -/
def stringifyEntries : List (String × Value) → String
  | [] => ""
  | [(k, v)] => k ++ ": " ++ stringify v
  | (k, v) :: rest => k ++ ": " ++ stringify v ++ ", " ++ stringifyEntries rest

end

mutual

/-- Host str() on runtime values, as invoked by interpreter.py in the
map-index paths (eval_index and exec_assignment use str(index), not the
language stringify).  str(None) is "None", str(True) is "True"; for lists
and dicts the host renders elements with repr, so a string element keeps
its quotes.  Escape sequences inside repr of exotic strings are beyond
the model; object defaults (rite/builtin/entity) are modelled by a stable
tag in place of the host address form. -/
def pyStr : Value → String
  | .void => "None"
  | .bool b => if b then "True" else "False"
  | .int n => toString n
  | .str s => s
  | .array l => "[" ++ pyReprList l ++ "]"
  | .map entries => "\x7b" ++ pyReprEntries entries ++ "\x7d"
  | .rite nm _ _ _ => "<rite object " ++ nm ++ ">"
  | .builtin nm => "<bound method " ++ nm ++ ">"
  | .entity nm => "<entity object " ++ nm ++ ">"

/-- Host repr(): like str() except strings gain single quotes. -/
def pyRepr : Value → String
  | .str s => "\x27" ++ s ++ "\x27"
  | .void => "None"
  | .bool b => if b then "True" else "False"
  | .int n => toString n
  | .array l => "[" ++ pyReprList l ++ "]"
  | .map entries => "\x7b" ++ pyReprEntries entries ++ "\x7d"
  | .rite nm _ _ _ => "<rite object " ++ nm ++ ">"
  | .builtin nm => "<bound method " ++ nm ++ ">"
  | .entity nm => "<entity object " ++ nm ++ ">"

/-- Comma-space join of repr of list elements. -/
def pyReprList : List Value → String
  | [] => ""
  | [v] => pyRepr v
  | v :: rest => pyRepr v ++ ", " ++ pyReprList rest

/-- Comma-space join of repr of dict entries (keys are strings, so they
gain quotes). -/
def pyReprEntries : List (String × Value) → String
  | [] => ""
  | [(k, v)] => "\x27" ++ k ++ "\x27" ++ ": " ++ pyRepr v
  | (k, v) :: rest => "\x27" ++ k ++ "\x27" ++ ": " ++ pyRepr v ++ ", " ++ pyReprEntries rest

end

mutual

/-- Computable structural size of a value, used to pick recursion bounds. -/
def valSize : Value → Nat
  | .array l => 1 + valSizeList l
  | .map e => 1 + valSizeEntries e
  | _ => 1

/-- Size of a list of values. -/
def valSizeList : List Value → Nat
  | [] => 0
  | v :: rest => 1 + valSize v + valSizeList rest

/-- Size of dict entries. -/
def valSizeEntries : List (String × Value) → Nat
  | [] => 0
  | (_, v) :: rest => 1 + valSize v + valSizeEntries rest

end

mutual

/-- Host equality (Python ==) with an explicit recursion bound; the bound
is instantiated below with a size that the recursion never exhausts.
Numerics compare by value across Bool and Int (host bool is an int);
lists compare elementwise, dicts by key-value agreement in both
directions regardless of order.  Function and entity objects compare by
host identity, represented here by their registry names. -/
def pyEqF : Nat → Value → Value → Bool
  | 0, _, _ => false
  | fuel + 1, l, r =>
    match l, r with
    | .void, .void => true
    | .bool a, .bool b => a == b
    | .bool a, .int n => (if a then (1 : Int) else 0) == n
    | .int n, .bool a => n == (if a then (1 : Int) else 0)
    | .int a, .int b => a == b
    | .str a, .str b => a == b
    | .array a, .array b => pyEqListF fuel a b
    | .map a, .map b => pyEqSubF fuel a b && pyEqSubF fuel b a
    | .rite n1 _ _ _, .rite n2 _ _ _ => n1 == n2
    | .builtin n1, .builtin n2 => n1 == n2
    | .entity n1, .entity n2 => n1 == n2
    | _, _ => false

/-- Elementwise list equality under the host ==. -/
def pyEqListF : Nat → List Value → List Value → Bool
  | 0, _, _ => false
  | fuel + 1, l, r =>
    match l, r with
    | [], [] => true
    | x :: xs, y :: ys => pyEqF fuel x y && pyEqListF fuel xs ys
    | _, _ => false

/-- One direction of host dict equality: every entry of the first dict is
matched by an equal value under the same key in the second. -/
def pyEqSubF : Nat → List (String × Value) → List (String × Value) → Bool
  | 0, _, _ => false
  | fuel + 1, a, b =>
    match a with
    | [] => true
    | (k, v) :: rest =>
      (match lookupEntry k b with
       | some w => pyEqF fuel v w
       | none => false) && pyEqSubF fuel rest b

end

/-- Host == at the standard bound: large enough for the structures
compared, so the bound is never the deciding factor on real runs. -/
def pyEq (l r : Value) : Bool := pyEqF (valSize l + valSize r + 1) l r

mutual

/-- Host ordering comparison (Python <) with an explicit recursion bound.
Numerics (Bool included) compare by value, strings lexicographically,
lists elementwise: the host skips pairs that compare equal under == and
orders by the first differing pair, falling back to length.  Any other
combination raises a host TypeError, which no language construct
catches. -/
def pyLtF : Nat → Value → Value → Except Signal Bool
  | 0, _, _ => .error .fuel
  | fuel + 1, l, r =>
    match pyNumOf l, pyNumOf r with
    | some a, some b => .ok (a < b)
    | _, _ =>
      match l, r with
      | .str a, .str b => .ok (a < b)
      | .array a, .array b => pyLtListF fuel a b
      | _, _ => .error (.host ("TypeError: unorderable types: " ++ type_name l ++ " < " ++ type_name r))

/-- Host list < (lexicographic over == and <). -/
def pyLtListF : Nat → List Value → List Value → Except Signal Bool
  | 0, _, _ => .error .fuel
  | fuel + 1, l, r =>
    match l, r with
    | [], [] => .ok false
    | [], _ :: _ => .ok true
    | _ :: _, [] => .ok false
    | x :: xs, y :: ys =>
      if pyEq x y then pyLtListF fuel xs ys else pyLtF fuel x y

end

/-- Host <= with the same dispatch as pyLtF; for the ordered types of
this model it coincides with lt-or-eq. -/
def pyLeF : Nat → Value → Value → Except Signal Bool
  | 0, _, _ => .error .fuel
  | fuel + 1, l, r =>
    match pyNumOf l, pyNumOf r with
    | some a, some b => .ok (a ≤ b)
    | _, _ =>
      match l, r with
      | .str a, .str b => .ok (a < b || a == b)
      | .array a, .array b =>
        (match pyLtListF fuel a b with
         | .ok t => .ok (t || pyEq l r)
         | .error s => .error s)
      | _, _ => .error (.host ("TypeError: unorderable types: " ++ type_name l ++ " <= " ++ type_name r))

/-- The names of the builtin registry, from Builtins.get in builtins.py. -/
def builtinNames : List String :=
  ["UTTER", "HEED", "SCRY", "INSCRIBE",
   "TYPEOF", "LENGTH", "PARSE_INT", "PARSE_FLOAT", "STRING", "INT", "FLOAT",
   "CHAR", "CODE", "BIN", "HEX",
   "APPEND", "PREPEND", "SLICE", "FIRST", "LAST", "CONCAT",
   "KEYS", "VALUES", "HAS", "SET", "DELETE",
   "SPLIT", "JOIN", "SUBSTRING", "UPPERCASE", "LOWERCASE", "TRIM", "REPLACE",
   "RANDOM", "RANDOM_INT", "TIME"]

/-- Builtins.get: a registered name yields the bound host operation,
represented by a builtin value carrying the name; anything else yields
nothing. -/
def builtinsGet (name : String) : Option Value :=
  if builtinNames.contains name then some (.builtin name) else none

/-- The non-short-circuit part of Interpreter.eval_binary_op, applied to
the two evaluated operands.  Numeric checks follow host isinstance, so a
Bool passes them and contributes 0 or 1.  Two-integer division is the
host floor division (//); modulo is the host % (sign of the divisor).
The bitwise operators on two Bools return a Bool on the host (&, |, ^)
while shifts always return an int; a negative shift count raises a host
ValueError. -/
def applyBinary (op : String) (l r : Value) : Except Signal Value :=
  if op = "+" then
    match l, r with
    | .str _, _ => .ok (.str (stringify l ++ stringify r))
    | _, .str _ => .ok (.str (stringify l ++ stringify r))
    | _, _ =>
      match pyNumOf l, pyNumOf r with
      | some a, some b => .ok (.int (a + b))
      | _, _ => .error (.rt ("Cannot add " ++ stringify l ++ " and " ++ stringify r))
  else if op = "-" then
    match pyNumOf l, pyNumOf r with
    | some a, some b => .ok (.int (a - b))
    | _, _ => .error (.rt ("Cannot subtract " ++ stringify r ++ " from " ++ stringify l))
  else if op = "*" then
    match pyNumOf l, pyNumOf r with
    | some a, some b => .ok (.int (a * b))
    | _, _ => .error (.rt ("Cannot multiply " ++ stringify l ++ " by " ++ stringify r))
  else if op = "/" then
    match pyNumOf l, pyNumOf r with
    | some a, some b =>
      if b = 0 then .error (.rt "Division by zero")
      else .ok (.int (Int.fdiv a b))
    | _, _ => .error (.rt ("Cannot divide " ++ stringify l ++ " by " ++ stringify r))
  else if op = "%" then
    match pyIntOf l, pyIntOf r with
    | some a, some b =>
      if b = 0 then .error (.rt "Modulo by zero")
      else .ok (.int (Int.fmod a b))
    | _, _ => .error (.rt ("Cannot modulo " ++ stringify l ++ " by " ++ stringify r))
  else if op = "==" then .ok (.bool (pyEq l r))
  else if op = "!=" then .ok (.bool (!pyEq l r))
  else if op = "<" then
    match pyLtF (valSize l + valSize r + 1) l r with
    | .ok b => .ok (.bool b)
    | .error s => .error s
  else if op = ">" then
    match pyLtF (valSize l + valSize r + 1) r l with
    | .ok b => .ok (.bool b)
    | .error s => .error s
  else if op = "<=" then
    match pyLeF (valSize l + valSize r + 1) l r with
    | .ok b => .ok (.bool b)
    | .error s => .error s
  else if op = ">=" then
    match pyLeF (valSize l + valSize r + 1) r l with
    | .ok b => .ok (.bool b)
    | .error s => .error s
  else if op = "&" then
    match l, r with
    | .bool a, .bool b => .ok (.bool (a && b))
    | _, _ =>
      match pyIntOf l, pyIntOf r with
      | some a, some b => .ok (.int (Int.land a b))
      | _, _ => .error (.rt "Bitwise AND expects integers")
  else if op = "|" then
    match l, r with
    | .bool a, .bool b => .ok (.bool (a || b))
    | _, _ =>
      match pyIntOf l, pyIntOf r with
      | some a, some b => .ok (.int (Int.lor a b))
      | _, _ => .error (.rt "Bitwise OR expects integers")
  else if op = "^" then
    match l, r with
    | .bool a, .bool b => .ok (.bool (a != b))
    | _, _ =>
      match pyIntOf l, pyIntOf r with
      | some a, some b => .ok (.int (Int.xor a b))
      | _, _ => .error (.rt "Bitwise XOR expects integers")
  else if op = "<<" then
    match pyIntOf l, pyIntOf r with
    | some a, some b =>
      if b < 0 then .error (.host "ValueError: negative shift count")
      else .ok (.int (a <<< b))
    | _, _ => .error (.rt "Bitwise shift expects integers")
  else if op = ">>" then
    match pyIntOf l, pyIntOf r with
    | some a, some b =>
      if b < 0 then .error (.host "ValueError: negative shift count")
      else .ok (.int (a >>> b))
    | _, _ => .error (.rt "Bitwise shift expects integers")
  else .error (.rt ("Unknown operator: " ++ op))

/-- Interpreter.eval_unary_op applied to the evaluated operand.  Host
isinstance again admits Bool where a number or integer is expected
(negation of a Bool gives an int; bitwise complement of a Bool gives an
int). -/
def applyUnary (op : String) (operand : Value) : Except Signal Value :=
  if op = "NOT" then .ok (.bool (!is_truthy operand))
  else if op = "-" then
    match pyNumOf operand with
    | some a => .ok (.int (-a))
    | none => .error (.rt ("Cannot negate " ++ stringify operand))
  else if op = "~" then
    match pyIntOf operand with
    | some a => .ok (.int (-(a + 1)))
    | none => .error (.rt "Bitwise NOT expects integer")
  else .error (.rt ("Unknown unary operator: " ++ op))

/-- Interpreter.eval_index applied to the evaluated object and index.
Arrays: the host int check admits Bool; the index must be in range with
no negative wrap.  Maps: the key is the host str() of the index value —
not the language stringification.  Strings: code-point index yielding a
one-character string. -/
def indexRead (obj index : Value) : Except Signal Value :=
  match obj with
  | .array l =>
    (match pyIntOf index with
     | none => .error (.rt "Array index must be an integer")
     | some n =>
       if n < 0 ∨ n ≥ l.length then
         .error (.rt ("Array index out of bounds: " ++ toString n))
       else
         match l.get? n.toNat with
         | some v => .ok v
         | none => .error (.host "unreachable: checked index"))
  | .map entries =>
    (match lookupEntry (pyStr index) entries with
     | some v => .ok v
     | none => .error (.rt ("Key not found in map: " ++ pyStr index)))
  | .str s =>
    (match pyIntOf index with
     | none => .error (.rt "String index must be an integer")
     | some n =>
       if n < 0 ∨ n ≥ s.length then
         .error (.rt ("String index out of bounds: " ++ toString n))
       else
         match s.data.get? n.toNat with
         | some c => .ok (.str (String.mk [c]))
         | none => .error (.host "unreachable: checked index"))
  | _ => .error (.rt ("Cannot index " ++ stringify obj))

/-- The collection-update effect of Interpreter.exec_assignment on an
index target, applied to the evaluated object, index and value; the
result is the updated collection (the heap write through the shared
reference is the aliasing side of the source, modelled in the heap
section).  Arrays: host int check (Bool admitted), strict range check.
Maps: the entry written is under the host str() of the index value. -/
def assignIndex (obj index v : Value) : Except Signal Value :=
  match obj with
  | .array l =>
    (match pyIntOf index with
     | none => .error (.rt "Array index must be an integer")
     | some n =>
       if n < 0 ∨ n ≥ l.length then
         .error (.rt ("Array index out of bounds: " ++ toString n))
       else .ok (.array (l.set n.toNat v)))
  | .map entries => .ok (.map (setEntry (pyStr index) v entries))
  | _ => .error (.rt "Cannot index non-collection")

/-- The collection-update effect of Interpreter.exec_assignment on a
member target: the literal member identifier is used verbatim as the
key. -/
def assignMember (obj : Value) (memberName : String) (v : Value) : Except Signal Value :=
  match obj with
  | .map entries => .ok (.map (setEntry memberName v entries))
  | _ => .error (.rt "Cannot access member of non-map")

/-- One Scope node of interpreter.py: a name-to-value dict, the set of
names declared constant, and an optional parent.  Scopes are shared
mutable objects on the host heap; the heap is made explicit as a list of
nodes addressed by index, with parent links as indices. -/
structure ScopeData where
  parent : Option Nat
  vars : List (String × Value)
  consts : List String

/-- What the evaluator observes of a registered entity: whether it is a
watcher, whether that watcher was loaded as a module, and its exports. -/
structure EntityInfo where
  isWatcher : Bool
  isModule : Bool
  exports : List (String × Value)

/-- Interpreter state for the sequential fragment: the scope heap, the
index of current_scope, and the entity registry. -/
structure St where
  scopes : List ScopeData
  current : Nat
  entities : List (String × EntityInfo)

/-- Scope.has: walk the parent chain for a binding.  The walk is bounded
by a fuel argument; on well-formed heaps (parent indices strictly
decreasing) a fuel of the heap size always suffices. -/
def scopeHas (scopes : List ScopeData) : Nat → Nat → String → Bool
  | 0, _, _ => false
  | fuel + 1, i, name =>
    match scopes.get? i with
    | none => false
    | some sd =>
      if (sd.vars.lookup name).isSome then true
      else
        match sd.parent with
        | some p => scopeHas scopes fuel p name
        | none => false

/-- Scope.get: nearest binding along the parent chain. -/
def scopeGet (scopes : List ScopeData) : Nat → Nat → String → Option Value
  | 0, _, _ => none
  | fuel + 1, i, name =>
    match scopes.get? i with
    | none => none
    | some sd =>
      match sd.vars.lookup name with
      | some v => some v
      | none =>
        match sd.parent with
        | some p => scopeGet scopes fuel p name
        | none => none

/-- Scope.set: write at the nearest binding; a constant rejects the
write, a missing name fails.  Returns the updated scope heap. -/
def scopeSet (scopes : List ScopeData) : Nat → Nat → String → Value → Except Signal (List ScopeData)
  | 0, _, _, _ => .error .fuel
  | fuel + 1, i, name, v =>
    match scopes.get? i with
    | none => .error (.host "unreachable: dangling scope reference")
    | some sd =>
      if (sd.vars.lookup name).isSome then
        if sd.consts.contains name then
          .error (.rt ("Cannot reassign constant: " ++ name))
        else
          .ok (scopes.set i { sd with vars := setEntry name v sd.vars })
      else
        match sd.parent with
        | some p => scopeSet scopes fuel p name v
        | none => .error (.rt ("Undefined variable: " ++ name))

/-- Scope.define into the current scope: writes the binding and, for a
constant declaration, records the name in the constants set.  As in the
source a non-constant redefinition does not remove an earlier constant
flag. -/
def defineVar (st : St) (name : String) (v : Value) (constant : Bool) : St :=
  match st.scopes.get? st.current with
  | none => st
  | some sd =>
    let sd' := { sd with
      vars := setEntry name v sd.vars,
      consts := if constant ∧ ¬ sd.consts.contains name then sd.consts ++ [name] else sd.consts }
    { st with scopes := st.scopes.set st.current sd' }

/-- The salvage-entry scope switch of exec_attempt_salvage: a fresh child
of the scope current at catch time, holding the error binding. -/
def attemptScope (st : St) (errName msg : String) : St :=
  let child : ScopeData := { parent := some st.current, vars := [(errName, .str msg)], consts := [] }
  { st with scopes := st.scopes ++ [child], current := st.scopes.length }

/-- The except clause of exec_attempt_salvage: RuntimeError and its
subclass CondemnError are caught and expose their message; every other
signal propagates. -/
def catchableMsg : Signal → Option String
  | .rt m => some m
  | .condemn m => some m
  | _ => none

/-- Interpreter.eval_member on the evaluated object: a map must contain
the literal member name; a module watcher entity must export it; all
else fails.  The entity registry supplies the watcher flags and
exports. -/
def memberRead (st : St) (obj : Value) (memberName : String) : Except Signal Value :=
  match obj with
  | .map entries =>
    (match lookupEntry memberName entries with
     | some v => .ok v
     | none => .error (.rt ("Key not found in map: " ++ memberName)))
  | .entity ename =>
    (match st.entities.lookup ename with
     | some info =>
       if info.isWatcher ∧ info.isModule then
         match info.exports.lookup memberName with
         | some v => .ok v
         | none => .error (.rt ("Module \x27" ++ ename ++ "\x27 has no export \x27" ++ memberName ++ "\x27"))
       else .error (.rt ("Cannot access member of " ++ stringify obj))
     | none => .error (.host "unreachable: dangling entity reference"))
  | _ => .error (.rt ("Cannot access member of " ++ stringify obj))

/-- Python slicing l[start:end] with clamping and negative-index wrap. -/
def pySlice {α : Type} (l : List α) (s e : Int) : List α :=
  let n : Int := l.length
  let s' : Nat := if s < 0 then (max 0 (n + s)).toNat else (min s n).toNat
  let e' : Nat := if e < 0 then (max 0 (n + e)).toNat else (min e n).toNat
  (l.take e').drop s'

/-- Remove the entry under a key from dict entries (host dict.pop with a
default: absence is not an error). -/
def eraseEntry (k : String) : List (String × Value) → List (String × Value)
  | [] => []
  | (k', v') :: rest => if k' = k then rest else (k', v') :: eraseEntry k rest

/-- The pure builtins of builtins.py, applied to evaluated arguments.
Host-level failures (wrong arity, which the host raises as TypeError
before the builtin body runs) surface as host signals; eval_call turns
them into Runtime errors.  UTTER prints and returns None; the output
channel is not part of this model.  The I/O, random, time, float and
string-parsing builtins exercise host facilities outside this model and
are marked as such. -/
def applyBuiltin (name : String) (args : List Value) : Except Signal Value :=
  if name = "UTTER" then .ok .void
  else if name = "TYPEOF" then
    match args with
    | [v] => .ok (.str (type_name v))
    | _ => .error (.host "TypeError: arity mismatch")
  else if name = "LENGTH" then
    match args with
    | [.str s] => .ok (.int s.length)
    | [.array l] => .ok (.int l.length)
    | [v] => .error (.rt ("LENGTH expects string or array, got " ++ type_name v))
    | _ => .error (.host "TypeError: arity mismatch")
  else if name = "STRING" then
    match args with
    | [v] => .ok (.str (stringify v))
    | _ => .error (.host "TypeError: arity mismatch")
  else if name = "INT" then
    -- the float branch truncates toward zero; floats are outside this
    -- model, so only the int pass-through and the failure branch appear.
    -- The host int check admits a Bool, which is returned unchanged.
    match args with
    | [.int n] => .ok (.int n)
    | [.bool b] => .ok (.bool b)
    | [v] => .error (.rt ("INT expects number, got " ++ type_name v))
    | _ => .error (.host "TypeError: arity mismatch")
  else if name = "CHAR" then
    match args with
    | [v] =>
      (match pyIntOf v with
       | some n =>
         if n < 0 ∨ n ≥ 1114112 then .error (.rt ("Invalid code point: " ++ toString n))
         else if 55296 ≤ n ∧ n < 57344 then .error (.host "surrogate code point outside model")
         else .ok (.str (String.mk [Char.ofNat n.toNat]))
       | none => .error (.rt ("CHAR expects integer, got " ++ type_name v)))
    | _ => .error (.host "TypeError: arity mismatch")
  else if name = "CODE" then
    match args with
    | [.str s] =>
      (match s.data with
       | [] => .error (.rt "CODE called on empty string")
       | c :: _ => .ok (.int c.toNat))
    | [v] => .error (.rt ("CODE expects string, got " ++ type_name v))
    | _ => .error (.host "TypeError: arity mismatch")
  else if name = "BIN" then
    -- host bin(n)[2:]: for a negative int the host renders "-0b…" and the
    -- slice leaves a leading "b", faithfully reproduced here.
    match args with
    | [v] =>
      (match pyIntOf v with
       | some n =>
         if n ≥ 0 then .ok (.str (String.mk (Nat.toDigits 2 n.toNat)))
         else .ok (.str ("b" ++ String.mk (Nat.toDigits 2 (-n).toNat)))
       | none => .error (.rt ("BIN expects integer, got " ++ type_name v)))
    | _ => .error (.host "TypeError: arity mismatch")
  else if name = "HEX" then
    -- host hex(n)[2:].upper(): a negative int keeps a leading "X".
    match args with
    | [v] =>
      (match pyIntOf v with
       | some n =>
         if n ≥ 0 then .ok (.str (String.mk (Nat.toDigits 16 n.toNat)).toUpper)
         else .ok (.str ("X" ++ (String.mk (Nat.toDigits 16 (-n).toNat)).toUpper))
       | none => .error (.rt ("HEX expects integer, got " ++ type_name v)))
    | _ => .error (.host "TypeError: arity mismatch")
  else if name = "APPEND" then
    match args with
    | [.array l, v] => .ok (.array (l ++ [v]))
    | [v, _] => .error (.rt ("APPEND expects array, got " ++ type_name v))
    | _ => .error (.host "TypeError: arity mismatch")
  else if name = "PREPEND" then
    match args with
    | [.array l, v] => .ok (.array (v :: l))
    | [v, _] => .error (.rt ("PREPEND expects array, got " ++ type_name v))
    | _ => .error (.host "TypeError: arity mismatch")
  else if name = "SLICE" then
    match args with
    | [.array l, s, e] =>
      (match pyIntOf s, pyIntOf e with
       | some a, some b => .ok (.array (pySlice l a b))
       | _, _ => .error (.rt "SLICE expects integer indices"))
    | [v, _, _] => .error (.rt ("SLICE expects array, got " ++ type_name v))
    | _ => .error (.host "TypeError: arity mismatch")
  else if name = "FIRST" then
    match args with
    | [.array []] => .error (.rt "FIRST called on empty array")
    | [.array (v :: _)] => .ok v
    | [v] => .error (.rt ("FIRST expects array, got " ++ type_name v))
    | _ => .error (.host "TypeError: arity mismatch")
  else if name = "LAST" then
    match args with
    | [.array l] =>
      (match l.getLast? with
       | some v => .ok v
       | none => .error (.rt "LAST called on empty array"))
    | [v] => .error (.rt ("LAST expects array, got " ++ type_name v))
    | _ => .error (.host "TypeError: arity mismatch")
  else if name = "CONCAT" then
    match args with
    | [.array l1, .array l2] => .ok (.array (l1 ++ l2))
    | [_, _] => .error (.rt "CONCAT expects two arrays")
    | _ => .error (.host "TypeError: arity mismatch")
  else if name = "KEYS" then
    match args with
    | [.map m] => .ok (.array (m.map (fun e => .str e.1)))
    | [v] => .error (.rt ("KEYS expects map, got " ++ type_name v))
    | _ => .error (.host "TypeError: arity mismatch")
  else if name = "VALUES" then
    match args with
    | [.map m] => .ok (.array (m.map (fun e => e.2)))
    | [v] => .error (.rt ("VALUES expects map, got " ++ type_name v))
    | _ => .error (.host "TypeError: arity mismatch")
  else if name = "HAS" then
    -- host `key in dict`: dict keys are strings here, and no non-string
    -- value compares equal to a string, so a non-string key reports false.
    match args with
    | [.map m, .str k] => .ok (.bool (lookupEntry k m).isSome)
    | [.map _, _] => .ok (.bool false)
    | [v, _] => .error (.rt ("HAS expects map, got " ++ type_name v))
    | _ => .error (.host "TypeError: arity mismatch")
  else if name = "SET" then
    -- the host would admit any hashable key; a non-string key would make
    -- a dict outside the language's string-keyed map model.
    match args with
    | [.map m, .str k, v] => .ok (.map (setEntry k v m))
    | [.map _, _, _] => .error (.host "non-string map key outside model")
    | [v, _, _] => .error (.rt ("SET expects map, got " ++ type_name v))
    | _ => .error (.host "TypeError: arity mismatch")
  else if name = "DELETE" then
    -- dict.pop(key, None): a missing or non-string key deletes nothing.
    match args with
    | [.map m, .str k] => .ok (.map (eraseEntry k m))
    | [.map m, _] => .ok (.map m)
    | [v, _] => .error (.rt ("DELETE expects map, got " ++ type_name v))
    | _ => .error (.host "TypeError: arity mismatch")
  else if name = "SPLIT" then
    match args with
    | [.str s, .str d] =>
      if d = "" then .ok (.array (s.data.map (fun c => .str (String.mk [c]))))
      else .ok (.array ((s.splitOn d).map (fun p => .str p)))
    | [_, _] => .error (.rt "SPLIT expects two strings")
    | _ => .error (.host "TypeError: arity mismatch")
  else if name = "JOIN" then
    match args with
    | [.array l, .str d] =>
      .ok (.str (String.intercalate d
        (l.map (fun v => match v with | .str s => s | _ => stringify v))))
    | [.array _, v] => .error (.rt ("JOIN expects string delimiter, got " ++ type_name v))
    | [v, _] => .error (.rt ("JOIN expects array, got " ++ type_name v))
    | _ => .error (.host "TypeError: arity mismatch")
  else if name = "SUBSTRING" then
    match args with
    | [.str s, a, b] =>
      (match pyIntOf a, pyIntOf b with
       | some x, some y => .ok (.str (String.mk (pySlice s.data x y)))
       | _, _ => .error (.rt "SUBSTRING expects integer indices"))
    | [v, _, _] => .error (.rt ("SUBSTRING expects string, got " ++ type_name v))
    | _ => .error (.host "TypeError: arity mismatch")
  else if name = "UPPERCASE" then
    match args with
    | [.str s] => .ok (.str s.toUpper)
    | [v] => .error (.rt ("UPPERCASE expects string, got " ++ type_name v))
    | _ => .error (.host "TypeError: arity mismatch")
  else if name = "LOWERCASE" then
    match args with
    | [.str s] => .ok (.str s.toLower)
    | [v] => .error (.rt ("LOWERCASE expects string, got " ++ type_name v))
    | _ => .error (.host "TypeError: arity mismatch")
  else if name = "TRIM" then
    match args with
    | [.str s] => .ok (.str s.trim)
    | [v] => .error (.rt ("TRIM expects string, got " ++ type_name v))
    | _ => .error (.host "TypeError: arity mismatch")
  else if name = "REPLACE" then
    match args with
    | [.str s, .str o, .str n] => .ok (.str (s.replace o n))
    | [_, _, _] => .error (.rt "REPLACE expects three strings")
    | _ => .error (.host "TypeError: arity mismatch")
  else
    .error (.host ("unmodelled builtin: " ++ name))

/-- The fresh scope of a rite call: parented at the captured closure
scope, parameters bound in order into the scope dict (a duplicate
parameter name overwrites, as the host dict would). -/
def riteScopeData (params : List String) (args : List Value) (closure : Nat) : ScopeData :=
  { parent := some closure,
    vars := (params.zip args).foldl (fun acc pa => setEntry pa.1 pa.2 acc) [],
    consts := [] }

/-- The interpreter state on entry to a rite body: the fresh call scope
is allocated and made current. -/
def riteEntrySt (st : St) (params : List String) (args : List Value) (closure : Nat) : St :=
  { st with scopes := st.scopes ++ [riteScopeData params args closure],
            current := st.scopes.length }

mutual

/-- Interpreter.evaluate: expression evaluation, with the scope heap and
entity registry threaded as explicit state and the recursion bounded by
fuel (the source recursion is bounded only by the host stack).  The
state component of the result is meaningful on both the success and the
signal outcome, mirroring the host where mutations persist when an
exception unwinds. -/
def evalE : Nat → Expr → St → Except Signal Value × St
  | 0, _, st => (.error .fuel, st)
  | fuel + 1, e, st =>
    match e with
    | .lit v => (.ok v, st)
    | .ident name =>
      -- resolution order of the source: the literal name THIS, then the
      -- builtin registry, then the scope chain, then module watchers.
      if name = "THIS" then (.ok (.entity "THIS"), st)
      else
        match builtinsGet name with
        | some b => (.ok b, st)
        | none =>
          if scopeHas st.scopes st.scopes.length st.current name then
            match scopeGet st.scopes st.scopes.length st.current name with
            | some v => (.ok v, st)
            | none => (.error (.host "unreachable: has without get"), st)
          else
            match st.entities.lookup name with
            | some info =>
              if info.isWatcher ∧ info.isModule then (.ok (.entity name), st)
              else (.error (.rt ("Undefined variable: " ++ name)), st)
            | none => (.error (.rt ("Undefined variable: " ++ name)), st)
    | .binaryOp op l r =>
      if op = "AND" then
        match evalE fuel l st with
        | (.ok lv, st1) => if !is_truthy lv then (.ok lv, st1) else evalE fuel r st1
        | err => err
      else if op = "OR" then
        match evalE fuel l st with
        | (.ok lv, st1) => if is_truthy lv then (.ok lv, st1) else evalE fuel r st1
        | err => err
      else
        match evalE fuel l st with
        | (.ok lv, st1) =>
          (match evalE fuel r st1 with
           | (.ok rv, st2) => (applyBinary op lv rv, st2)
           | err => err)
        | err => err
    | .unaryOp op operand =>
      match evalE fuel operand st with
      | (.ok v, st1) => (applyUnary op v, st1)
      | err => err
    | .call callee argEs =>
      match evalE fuel callee st with
      | (.ok cv, st1) =>
        (match evalArgs fuel argEs st1 with
         | (.ok args, st2) =>
           (match cv with
            | .builtin bname =>
              -- eval_call re-raises RuntimeError unchanged and wraps any
              -- other host exception into a RuntimeError.
              (match applyBuiltin bname args with
               | .error (.host m) => (.error (.rt m), st2)
               | r => (r, st2))
            | .rite rname params body clo => callRite fuel rname params body clo args st2
            | _ => (.error (.rt ("Cannot call " ++ stringify cv)), st2))
         | (.error s, st2) => (.error s, st2))
      | err => err
    | .indexE objE idxE =>
      match evalE fuel objE st with
      | (.ok ov, st1) =>
        (match evalE fuel idxE st1 with
         | (.ok iv, st2) => (indexRead ov iv, st2)
         | err => err)
      | err => err
    | .member objE mname =>
      match evalE fuel objE st with
      | (.ok ov, st1) => (memberRead st1 ov mname, st1)
      | err => err
    | .arrayLit elems =>
      match evalArgs fuel elems st with
      | (.ok vs, st1) => (.ok (.array vs), st1)
      | (.error s, st1) => (.error s, st1)
    | .mapLit entries =>
      match evalMapEntries fuel entries [] st with
      | (.ok m, st1) => (.ok (.map m), st1)
      | (.error s, st1) => (.error s, st1)

/-- Left-to-right evaluation of an expression list (call arguments and
array literals). -/
def evalArgs : Nat → List Expr → St → Except Signal (List Value) × St
  | 0, _, st => (.error .fuel, st)
  | _ + 1, [], st => (.ok [], st)
  | fuel + 1, e :: rest, st =>
    match evalE fuel e st with
    | (.ok v, st1) =>
      (match evalArgs fuel rest st1 with
       | (.ok vs, st2) => (.ok (v :: vs), st2)
       | (.error s, st2) => (.error s, st2))
    | (.error s, st1) => (.error s, st1)

/-- Map-literal evaluation: values left-to-right in declaration order,
inserting into the accumulated dict so that a duplicate key overwrites
(later wins, original position kept — host dict semantics). -/
def evalMapEntries : Nat → List (String × Expr) → List (String × Value) → St →
    Except Signal (List (String × Value)) × St
  | 0, _, _, st => (.error .fuel, st)
  | _ + 1, [], acc, st => (.ok acc, st)
  | fuel + 1, (k, e) :: rest, acc, st =>
    match evalE fuel e st with
    | (.ok v, st1) => evalMapEntries fuel rest (setEntry k v acc) st1
    | (.error s, st1) => (.error s, st1)

/-- Interpreter.call_rite: exact-arity check, a fresh scope parented at
the rite's captured closure scope, parameters bound in order (a later
duplicate parameter overwrites, as the host dict would), body executed,
BequeathError caught to recover the value, None (Void) when the body
finishes without one, and the caller's current scope restored on every
exit (the finally of the source). -/
def callRite : Nat → String → List String → List Stmt → Nat → List Value → St →
    Except Signal Value × St
  | 0, _, _, _, _, _, st => (.error .fuel, st)
  | fuel + 1, rname, params, body, closure, args, st =>
    if args.length ≠ params.length then
      (.error (.rt ("Rite \x27" ++ rname ++ "\x27 expects " ++ toString params.length ++
        " arguments, got " ++ toString args.length)), st)
    else
      match execList fuel body (riteEntrySt st params args closure) with
      | (.ok _, st2) => (.ok .void, { st2 with current := st.current })
      | (.error (.bequeath v), st2) => (.ok v, { st2 with current := st.current })
      | (.error s, st2) => (.error s, { st2 with current := st.current })

/-- Interpreter.execute on the sequential statement forms. -/
def execS : Nat → Stmt → St → Except Signal Unit × St
  | 0, _, st => (.error .fuel, st)
  | fuel + 1, s, st =>
    match s with
    | .varDecl name valueE =>
      (match evalE fuel valueE st with
       | (.ok v, st1) => (.ok (), defineVar st1 name v false)
       | (.error sg, st1) => (.error sg, st1))
    | .constDecl name valueE =>
      (match evalE fuel valueE st with
       | (.ok v, st1) => (.ok (), defineVar st1 name v true)
       | (.error sg, st1) => (.error sg, st1))
    | .assignment target valueE =>
      -- the assigned value is evaluated before the target is examined.
      (match evalE fuel valueE st with
       | (.ok v, st1) =>
         (match target with
          | .ident name =>
            (match scopeSet st1.scopes st1.scopes.length st1.current name v with
             | .ok newScopes => (.ok (), { st1 with scopes := newScopes })
             | .error sg => (.error sg, st1))
          | .indexE objE idxE =>
            (match evalE fuel objE st1 with
             | (.ok ov, st2) =>
               (match evalE fuel idxE st2 with
                | (.ok iv, st3) =>
                  -- the checks and the key/index computation of the write;
                  -- the store through the shared collection reference is
                  -- the aliasing side, modelled in the heap section.
                  (match assignIndex ov iv v with
                   | .ok _ => (.ok (), st3)
                   | .error sg => (.error sg, st3))
                | (.error sg, st3) => (.error sg, st3))
             | (.error sg, st2) => (.error sg, st2))
          | .member objE mname =>
            (match evalE fuel objE st1 with
             | (.ok ov, st2) =>
               (match assignMember ov mname v with
                | .ok _ => (.ok (), st2)
                | .error sg => (.error sg, st2))
             | (.error sg, st2) => (.error sg, st2))
          | _ => (.error (.rt "Invalid assignment target"), st1))
       | (.error sg, st1) => (.error sg, st1))
    | .riteDef name params body =>
      (.ok (), defineVar st name (.rite name params body st.current) true)
    | .conditional cond thenB elseB =>
      (match evalE fuel cond st with
       | (.ok c, st1) =>
         if is_truthy c then execList fuel thenB st1
         else
           (match elseB with
            | some eb => execList fuel eb st1
            | none => (.ok (), st1))
       | (.error sg, st1) => (.error sg, st1))
    | .attemptSalvage body errName handler =>
      (match execList fuel body st with
       | (.ok _, st1) => (.ok (), st1)
       | (.error sg, st1) =>
         (match catchableMsg sg with
          | some m =>
            let st2 := attemptScope st1 errName m
            (match execList fuel handler st2 with
             | (r3, st3) => (r3, { st3 with current := st1.current }))
          | none => (.error sg, st1)))
    | .condemn msgE =>
      (match evalE fuel msgE st with
       | (.ok v, st1) => (.error (.condemn (stringify v)), st1)
       | (.error sg, st1) => (.error sg, st1))
    | .bequeath valE =>
      (match valE with
       | none => (.error (.bequeath .void), st)
       | some e =>
         (match evalE fuel e st with
          | (.ok v, st1) => (.error (.bequeath v), st1)
          | (.error sg, st1) => (.error sg, st1)))
    | .exprStmt e =>
      (match evalE fuel e st with
       | (.ok _, st1) => (.ok (), st1)
       | (.error sg, st1) => (.error sg, st1))

/-- Interpreter.exec_statements: textual order, stopping at the first
signal. -/
def execList : Nat → List Stmt → St → Except Signal Unit × St
  | 0, _, st => (.error .fuel, st)
  | _ + 1, [], st => (.ok (), st)
  | fuel + 1, s :: rest, st =>
    match execS fuel s st with
    | (.ok _, st1) => execList fuel rest st1
    | err => err

end

/-- Modelled from the spec: IEEE-754 floats occur in the stringification
claims only.  The host renders a finite double as sign, integer digits, a
decimal point and fraction digits (possibly an exponent form, outside
this model); it never renders a float as a bare integer string.  A float
value is therefore carried by its printed decimal components. -/
structure FloatLit where
  neg : Bool
  ipartDigits : List Nat
  fpartDigits : List Nat

/-- Decimal digits to characters. -/
def digitsStr (ds : List Nat) : String :=
  String.mk (ds.map (fun d => Char.ofNat (48 + d % 10)))

/-- The printed form of a float: it always contains a decimal point, so a
float like 5.0 prints "5.0" and never "5". -/
def floatLitStr (f : FloatLit) : String :=
  (if f.neg then "-" else "") ++ digitsStr f.ipartDigits ++ "." ++ digitsStr f.fpartDigits

/-- The printable values: the Rite/Builtin/Entity-free fragment of the
value model, which is exactly the domain of the round-trip claim, with
floats included. -/
inductive PVal where
  | void
  | bool (b : Bool)
  | int (n : Int)
  | float (f : FloatLit)
  | str (s : String)
  | arr (elems : List PVal)
  | pmap (entries : List (String × PVal))

mutual

/-- stringify of builtins.py on printable values: the source matches
None, bool, list and dict in that order and falls through to host str()
for ints, floats and strings. -/
def stringifyP : PVal → String
  | .void => "VOID"
  | .bool b => if b then "ALIVE" else "DEAD"
  | .arr l => "[" ++ stringifyPList l ++ "]"
  | .pmap entries => "\x7b" ++ stringifyPEntries entries ++ "\x7d"
  | .int n => toString n
  | .float f => floatLitStr f
  | .str s => s

/-- The comma-space join produced by ", ".join over element strings. -/
def stringifyPList : List PVal → String
  | [] => ""
  | [v] => stringifyP v
  | v :: rest => stringifyP v ++ ", " ++ stringifyPList rest

/-- The comma-space join over "key: value" entry strings. -/
def stringifyPEntries : List (String × PVal) → String
  | [] => ""
  | [(k, v)] => k ++ ": " ++ stringifyP v
  | (k, v) :: rest => k ++ ": " ++ stringifyP v ++ ", " ++ stringifyPEntries rest

end

mutual

/-- The canonical stringification table of the spec, written from its
words: Void to "VOID", true to "ALIVE", false to "DEAD", integers and
floats in their natural decimal form, strings as their raw characters,
arrays as "[" plus the comma-space-joined element strings plus "]", maps
as braces around comma-space-joined "key: value" entries. -/
def canonicalStr : PVal → String
  | .void => "VOID"
  | .bool true => "ALIVE"
  | .bool false => "DEAD"
  | .int n => toString n
  | .float f => floatLitStr f
  | .str s => s
  | .arr l => "[" ++ canonicalJoin l ++ "]"
  | .pmap entries => "\x7b" ++ canonicalEntriesJoin entries ++ "\x7d"

/-- Comma-space join of canonical element strings. -/
def canonicalJoin : List PVal → String
  | [] => ""
  | [v] => canonicalStr v
  | v :: rest => canonicalStr v ++ ", " ++ canonicalJoin rest

/-- Comma-space join of canonical "key: value" entries. -/
def canonicalEntriesJoin : List (String × PVal) → String
  | [] => ""
  | [(k, v)] => k ++ ": " ++ canonicalStr v
  | (k, v) :: rest => k ++ ": " ++ canonicalStr v ++ ", " ++ canonicalEntriesJoin rest

end

mutual

/-- Computable size of a printable value, for strong induction. -/
def pvalSize : PVal → Nat
  | .arr l => 1 + pvalSizeList l
  | .pmap e => 1 + pvalSizeEntries e
  | _ => 1

/-- Size of an element list. -/
def pvalSizeList : List PVal → Nat
  | [] => 0
  | v :: rest => 1 + pvalSize v + pvalSizeList rest

/-- Size of an entry list. -/
def pvalSizeEntries : List (String × PVal) → Nat
  | [] => 0
  | (_, v) :: rest => 1 + pvalSize v + pvalSizeEntries rest

end

/-- The literal 5.0 as printed by the host. -/
def fiveLit : FloatLit := { neg := false, ipartDigits := [5], fpartDigits := [0] }

namespace HeapModel

/-- Host heap references: collection values are shared mutable objects on
the host heap, addressed here by index; everything else is carried
inline.  This section models the collection builtins of builtins.py at
the reference level so that non-mutation is expressible. -/
inductive HRef where
  | prim (v : Value)
  | arrRef (a : Nat)
  | mapRef (m : Nat)

/-- The host heap of live collection objects: a list object is a list of
references, a dict object an insertion-ordered string-keyed table of
references.  Allocation appends a fresh cell. -/
structure Heap where
  arrays : List (List HRef)
  maps : List (List (String × HRef))

/-- Dict-style update on reference tables (same discipline as setEntry). -/
def setEntryR (k : String) (v : HRef) : List (String × HRef) → List (String × HRef)
  | [] => [(k, v)]
  | (k', v') :: rest => if k' = k then (k, v) :: rest else (k', v') :: setEntryR k v rest

/-- Dict pop-with-default on reference tables. -/
def eraseEntryR (k : String) : List (String × HRef) → List (String × HRef)
  | [] => []
  | (k', v') :: rest => if k' = k then rest else (k', v') :: eraseEntryR k rest

/-- The printed kind of a reference, for error messages. -/
def refKind : HRef → String
  | .prim v => type_name v
  | .arrRef _ => "ARRAY"
  | .mapRef _ => "MAP"

/-- Builtins.append: `arr + [value]` builds a fresh list object; the
argument object is untouched. -/
def append (h : Heap) (x v : HRef) : Except Signal (Heap × HRef) :=
  match x with
  | .arrRef a =>
    (match h.arrays.get? a with
     | some l => .ok ({ h with arrays := h.arrays ++ [l ++ [v]] }, .arrRef h.arrays.length)
     | none => .error (.host "unreachable: dangling array reference"))
  | r => .error (.rt ("APPEND expects array, got " ++ refKind r))

/-- Builtins.prepend: `[value] + arr` builds a fresh list object. -/
def prepend (h : Heap) (x v : HRef) : Except Signal (Heap × HRef) :=
  match x with
  | .arrRef a =>
    (match h.arrays.get? a with
     | some l => .ok ({ h with arrays := h.arrays ++ [v :: l] }, .arrRef h.arrays.length)
     | none => .error (.host "unreachable: dangling array reference"))
  | r => .error (.rt ("PREPEND expects array, got " ++ refKind r))

/-- Builtins.slice: `arr[start:end]` allocates a fresh list with the
host slice semantics; start and end must pass the host int check. -/
def slice (h : Heap) (x s e : HRef) : Except Signal (Heap × HRef) :=
  match x with
  | .arrRef a =>
    (match h.arrays.get? a with
     | some l =>
       (match s, e with
        | .prim sv, .prim ev =>
          (match pyIntOf sv, pyIntOf ev with
           | some si, some ei =>
             .ok ({ h with arrays := h.arrays ++ [pySlice l si ei] }, .arrRef h.arrays.length)
           | _, _ => .error (.rt "SLICE expects integer indices"))
        | _, _ => .error (.rt "SLICE expects integer indices"))
     | none => .error (.host "unreachable: dangling array reference"))
  | r => .error (.rt ("SLICE expects array, got " ++ refKind r))

/-- Builtins.concat: `arr1 + arr2` allocates a fresh list. -/
def concat (h : Heap) (x y : HRef) : Except Signal (Heap × HRef) :=
  match x, y with
  | .arrRef a, .arrRef b =>
    (match h.arrays.get? a, h.arrays.get? b with
     | some l1, some l2 =>
       .ok ({ h with arrays := h.arrays ++ [l1 ++ l2] }, .arrRef h.arrays.length)
     | _, _ => .error (.host "unreachable: dangling array reference"))
  | _, _ => .error (.rt "CONCAT expects two arrays")

/-- Builtins.set_: `m.copy()` then a keyed write on the copy; the
argument dict is untouched.  The language's maps are string-keyed. -/
def setB (h : Heap) (x : HRef) (k : String) (v : HRef) : Except Signal (Heap × HRef) :=
  match x with
  | .mapRef m =>
    (match h.maps.get? m with
     | some entries =>
       .ok ({ h with maps := h.maps ++ [setEntryR k v entries] }, .mapRef h.maps.length)
     | none => .error (.host "unreachable: dangling map reference"))
  | r => .error (.rt ("SET expects map, got " ++ refKind r))

/-- Builtins.delete: `m.copy()` then pop(key, None) on the copy. -/
def delete (h : Heap) (x : HRef) (k : String) : Except Signal (Heap × HRef) :=
  match x with
  | .mapRef m =>
    (match h.maps.get? m with
     | some entries =>
       .ok ({ h with maps := h.maps ++ [eraseEntryR k entries] }, .mapRef h.maps.length)
     | none => .error (.host "unreachable: dangling map reference"))
  | r => .error (.rt ("DELETE expects map, got " ++ refKind r))

end HeapModel

/-- Observable state of an Entity of entities.py: the _dead flag, the
asyncio death event, whether a cancel of the host task has been
requested, and the _complete event of a branch entity. -/
structure EntityState where
  dead : Bool
  eventSet : Bool
  cancelRequested : Bool
  completeSet : Bool

/-- Entity.die: a no-op when already dead; otherwise sets the flag, sets
the death event, and cancels the host task. -/
def entityDie (s : EntityState) : EntityState :=
  if s.dead then s
  else { s with dead := true, eventSet := true, cancelRequested := true }

/-- Entity.wait_for_death waits on the death event; it returns
immediately exactly when the event is already set. -/
def awaitDeathImmediate (s : EntityState) : Bool := s.eventSet

/-- BranchEntity.complete: set the completion event, then die. -/
def entityComplete (s : EntityState) : EntityState :=
  entityDie { s with completeSet := true }

/-- The operations that mutate an entity's observable state: external or
kind-specific die (timers, processes, watchers and composites all call
die), and branch completion. -/
inductive EntityOp where
  | die
  | complete

/-- One operation applied to the state. -/
def entityStep : EntityOp → EntityState → EntityState
  | .die, s => entityDie s
  | .complete, s => entityComplete s

/-- A sequence of operations applied in order. -/
def entitySteps (ops : List EntityOp) (s : EntityState) : EntityState :=
  ops.foldl (fun acc op => entityStep op acc) s

/-- State of the And-composite scenario of the claim: the two child
death events, the composite's death flag, and whether the wait-mode
loop's EXECUTE clause has run. -/
structure AndSys where
  aDead : Bool
  bDead : Bool
  compDead : Bool
  executed : Bool

/-- The scheduler-visible transitions of `~ATH(A && B) { } EXECUTE(X)`:
a child dies; the composite's start coroutine — which gathers
wait_for_death of all children — returns once all are dead and calls
die; the loop body, blocked on the composite's death, then spawns and
awaits the EXECUTE task.  (CompositeEntity.start, AND arm, and
Interpreter.exec_ath_loop wait mode.) -/
inductive AndStep : AndSys → AndSys → Prop where
  | childA (s : AndSys) (h : s.aDead = false) : AndStep s { s with aDead := true }
  | childB (s : AndSys) (h : s.bDead = false) : AndStep s { s with bDead := true }
  | gatherDone (s : AndSys) (ha : s.aDead = true) (hb : s.bDead = true)
      (h : s.compDead = false) : AndStep s { s with compDead := true }
  | execRuns (s : AndSys) (h : s.compDead = true) (he : s.executed = false) :
      AndStep s { s with executed := true }

/-- The loop's starting state: the children may or may not be dead
already, the composite is freshly constructed and EXECUTE has not run. -/
def andInit (a0 b0 : Bool) : AndSys :=
  { aDead := a0, bDead := b0, compDead := false, executed := false }

/-- Reachability under the scenario's transitions. -/
def AndReach (s t : AndSys) : Prop := Relation.ReflTransGen AndStep s t

/-- A scope in which the builtin name UTTER is shadowed by a local
binding, for the resolution-order analysis. -/
def shadowScope : ScopeData := { parent := none, vars := [("UTTER", Value.int 5)], consts := [] }

/-- A state whose current scope is shadowScope. -/
def shadowSt : St := { scopes := [shadowScope], current := 0, entities := [] }

/-- A state with a single empty global scope. -/
def emptySt : St := { scopes := [{ parent := none, vars := [], consts := [] }], current := 0, entities := [] }

/-- The state of a freshly constructed entity. -/
def entityInit : EntityState :=
  { dead := false, eventSet := false, cancelRequested := false, completeSet := false }

/-- A small heap holding one array [1, 2, 3] and one map. -/
def heapW : HeapModel.Heap :=
  { arrays := [[HeapModel.HRef.prim (Value.int 1), HeapModel.HRef.prim (Value.int 2),
                HeapModel.HRef.prim (Value.int 3)]],
    maps := [[("x", HeapModel.HRef.prim (Value.int 1))]] }

/-- The contents of heapW's array cell. -/
def heapWCell : List HeapModel.HRef :=
  [HeapModel.HRef.prim (Value.int 1), HeapModel.HRef.prim (Value.int 2),
   HeapModel.HRef.prim (Value.int 3)]

/-- A successful positional read bounds the index. -/
lemma get_lt_of_get?_some {α : Type} {l : List α} {n : Nat} {x : α}
    (h : l.get? n = some x) : n < l.length := by
  by_contra hge
  rw [List.get?_eq_none.mpr (Nat.le_of_not_lt hge)] at h
  cases h

/-- Once dead with the death event set, an entity stays so under any
further operations. -/
lemma entitySteps_preserve (ops : List EntityOp) :
    ∀ t : EntityState, t.dead = true → t.eventSet = true →
      (entitySteps ops t).dead = true ∧ (entitySteps ops t).eventSet = true := by
  induction ops with
  | nil => intro t hd he; exact ⟨hd, he⟩
  | cons op rest ih =>
    intro t hd he
    have hstep : (entityStep op t).dead = true ∧ (entityStep op t).eventSet = true := by
      cases op with
      | die => simp [entityStep, entityDie, hd, he]
      | complete => simp [entityStep, entityComplete, entityDie, hd, he]
    simpa [entitySteps] using ih (entityStep op t) hstep.1 hstep.2

/-- The invariant that a dead entity has its death event set is preserved
by every operation. -/
lemma entitySteps_inv (ops : List EntityOp) :
    ∀ u : EntityState, (u.dead = true → u.eventSet = true) →
      ((entitySteps ops u).dead = true → (entitySteps ops u).eventSet = true) := by
  induction ops with
  | nil => intro u h; simpa [entitySteps] using h
  | cons op rest ih =>
    intro u h
    have hstep : (entityStep op u).dead = true → (entityStep op u).eventSet = true := by
      cases op with
      | die =>
        by_cases ud : u.dead
        · simp [entityStep, entityDie, ud]; exact h ud
        · simp [entityStep, entityDie, ud]
      | complete =>
        by_cases ud : u.dead
        · simp [entityStep, entityComplete, entityDie, ud]; exact h ud
        · simp [entityStep, entityComplete, entityDie, ud]
    simpa [entitySteps] using ih (entityStep op u) hstep

/-- die() on a dead entity changes nothing. -/
lemma entityDie_noop (t : EntityState) (h : t.dead = true) : entityDie t = t := by
  simp [entityDie, h]

/-- Bounded form of the round-trip property: stringification agrees with
the canonical table on every printable value, by strong induction on
size. -/
lemma stringifyP_eq_canonical_bounded :
    ∀ n : Nat,
      (∀ v, pvalSize v ≤ n → stringifyP v = canonicalStr v) ∧
      (∀ l, pvalSizeList l ≤ n → stringifyPList l = canonicalJoin l) ∧
      (∀ es, pvalSizeEntries es ≤ n → stringifyPEntries es = canonicalEntriesJoin es) := by
  intro n
  induction n with
  | zero =>
    refine ⟨?_, ?_, ?_⟩
    · intro v h; cases v <;> simp [pvalSize] at h
    · intro l h
      cases l with
      | nil => rfl
      | cons v rest => simp [pvalSizeList] at h
    · intro es h
      cases es with
      | nil => rfl
      | cons e rest =>
        obtain ⟨k, v⟩ := e
        simp [pvalSizeEntries] at h
  | succ n ih =>
    obtain ⟨ihV, ihL, ihE⟩ := ih
    refine ⟨?_, ?_, ?_⟩
    · intro v h
      cases v with
      | void => rfl
      | bool b => cases b <;> rfl
      | int m => rfl
      | float f => rfl
      | str s => rfl
      | arr l =>
        have hl : pvalSizeList l ≤ n := by simp [pvalSize] at h; omega
        simp [stringifyP, canonicalStr, ihL l hl]
      | pmap es =>
        have he : pvalSizeEntries es ≤ n := by simp [pvalSize] at h; omega
        simp [stringifyP, canonicalStr, ihE es he]
    · intro l h
      match l with
      | [] => rfl
      | [v] =>
        have hv : pvalSize v ≤ n := by simp [pvalSizeList] at h; omega
        simp [stringifyPList, canonicalJoin, ihV v hv]
      | v :: w :: rest =>
        have hv : pvalSize v ≤ n := by simp [pvalSizeList] at h; omega
        have hr : pvalSizeList (w :: rest) ≤ n := by
          simp [pvalSizeList] at h ⊢; omega
        simp [stringifyPList, canonicalJoin, ihV v hv]
        rw [ihL (w :: rest) hr]
    · intro es h
      match es with
      | [] => rfl
      | [(k, v)] =>
        have hv : pvalSize v ≤ n := by simp [pvalSizeEntries] at h; omega
        simp [stringifyPEntries, canonicalEntriesJoin, ihV v hv]
      | (k, v) :: (k2, v2) :: rest =>
        have hv : pvalSize v ≤ n := by simp [pvalSizeEntries] at h; omega
        have hr : pvalSizeEntries ((k2, v2) :: rest) ≤ n := by
          simp [pvalSizeEntries] at h ⊢; omega
        simp [stringifyPEntries, canonicalEntriesJoin, ihV v hv]
        rw [ihE ((k2, v2) :: rest) hr]

/-- C1 counterexample: a name that is both bound in the current scope
chain and present in the builtin registry resolves to the builtin, not
the scope binding.  With UTTER bound to 5 in the current scope, the
identifier UTTER evaluates to the builtin, contradicting the claimed
scope-before-builtins order. -/
theorem ident_shadow_cex :
    scopeHas shadowSt.scopes shadowSt.scopes.length shadowSt.current "UTTER" = true ∧
    scopeGet shadowSt.scopes shadowSt.scopes.length shadowSt.current "UTTER" = some (.int 5) ∧
    (builtinsGet "UTTER").isSome = true ∧
    evalE 3 (.ident "UTTER") shadowSt = (.ok (.builtin "UTTER"), shadowSt) ∧
    Value.builtin "UTTER" ≠ Value.int 5 := by
  refine ⟨rfl, rfl, rfl, rfl, ?_⟩
  intro h
  exact Value.noConfusion h

/-- C1 (amended): identifier resolution follows the order — the literal
name THIS yields the process entity; otherwise the builtin registry;
otherwise the nearest binding in the scope chain; otherwise the entity
registry, only for a module watcher; otherwise it fails with an
unbound-name Runtime error.  (The spec's claimed order put the scope
chain before the builtin registry; the source checks builtins first.) -/
theorem ident_resolution_order (f : Nat) (st : St) (name : String) :
    (name = "THIS" → evalE (f + 1) (.ident name) st = (.ok (.entity "THIS"), st)) ∧
    (∀ b, name ≠ "THIS" → builtinsGet name = some b →
      evalE (f + 1) (.ident name) st = (.ok b, st)) ∧
    (∀ v, name ≠ "THIS" → builtinsGet name = none →
      scopeHas st.scopes st.scopes.length st.current name = true →
      scopeGet st.scopes st.scopes.length st.current name = some v →
      evalE (f + 1) (.ident name) st = (.ok v, st)) ∧
    (∀ info, name ≠ "THIS" → builtinsGet name = none →
      scopeHas st.scopes st.scopes.length st.current name = false →
      st.entities.lookup name = some info → info.isWatcher = true → info.isModule = true →
      evalE (f + 1) (.ident name) st = (.ok (.entity name), st)) ∧
    (∀ info, name ≠ "THIS" → builtinsGet name = none →
      scopeHas st.scopes st.scopes.length st.current name = false →
      st.entities.lookup name = some info → ¬(info.isWatcher = true ∧ info.isModule = true) →
      evalE (f + 1) (.ident name) st = (.error (.rt ("Undefined variable: " ++ name)), st)) ∧
    (name ≠ "THIS" → builtinsGet name = none →
      scopeHas st.scopes st.scopes.length st.current name = false →
      st.entities.lookup name = none →
      evalE (f + 1) (.ident name) st = (.error (.rt ("Undefined variable: " ++ name)), st)) := by
  refine ⟨?_, ?_, ?_, ?_, ?_, ?_⟩
  · intro h; simp [evalE, h]
  · intro b hT hB; simp [evalE, hT, hB]
  · intro v hT hB hHas hGet; simp [evalE, hT, hB, hHas, hGet]
  · intro info hT hB hHas hL hW hM; simp [evalE, hT, hB, hHas, hL, hW, hM]
  · intro info hT hB hHas hL hNot
    simp [evalE, hT, hB, hHas, hL]
    intro hW
    exact Bool.eq_false_iff.mpr (fun hM => hNot ⟨hW, hM⟩)
  · intro hT hB hHas hL; simp [evalE, hT, hB, hHas, hL]

/-- Witness for the amended resolution order: the builtin LENGTH resolves
to the builtin value in a state where it is not shadowed. -/
theorem ident_resolution_order_w :
    evalE 3 (.ident "LENGTH") shadowSt = (.ok (.builtin "LENGTH"), shadowSt) :=
  (ident_resolution_order 2 shadowSt "LENGTH").2.1 (.builtin "LENGTH") (by decide) rfl

/-- C2 counterexample: (-7) / 2 evaluates to -4, not the claimed -3; the
source uses host floor division for two integers. -/
theorem int_division_cex :
    applyBinary "/" (.int (-7)) (.int 2) = .ok (.int (-4)) ∧
    ((.ok (.int (-4)) : Except Signal Value) ≠ .ok (.int (-3))) := by
  refine ⟨rfl, ?_⟩
  intro h
  injection h with h1
  injection h1 with h2
  omega

/-- C2 (amended): for two Int operands, / returns the floor of the exact
quotient (rounding toward negative infinity, so (-7) / 2 is -4), and a
zero divisor fails Runtime with a division-by-zero error. -/
theorem int_division_floor (a b : Int) :
    (b ≠ 0 → applyBinary "/" (.int a) (.int b) = .ok (.int (Int.fdiv a b))) ∧
    applyBinary "/" (.int a) (.int 0) = .error (.rt "Division by zero") := by
  constructor
  · intro hb; simp [applyBinary, pyNumOf, pyIntOf, hb]
  · simp [applyBinary, pyNumOf, pyIntOf]

/-- Witness for the floor-division behaviour at concrete operands. -/
theorem int_division_floor_w :
    applyBinary "/" (.int (-7)) (.int 2) = .ok (.int (-4)) ∧
    applyBinary "/" (.int 5) (.int 0) = .error (.rt "Division by zero") := by
  have h := int_division_floor (-7) 2
  have h2 := int_division_floor 5 0
  exact ⟨by simpa using h.1 (by decide), h2.2⟩

/-- C3 counterexample: ALIVE + 1 evaluates to the integer 2 rather than
failing Runtime — the host treats a Bool as an integer in the numeric
operand checks. -/
theorem bool_arith_cex :
    applyBinary "+" (.bool true) (.int 1) = .ok (.int 2) ∧
    (applyBinary "+" (.bool true) (.int 1)).isOk = true :=
  ⟨rfl, rfl⟩

/-- C3 (amended): the numeric operators accept a Bool operand as the host
integer 0 or 1: + (both orders), -, * succeed outright, and / and %
succeed whenever the divisor is nonzero. -/
theorem bool_numeric_ops (bb : Bool) (n : Int) :
    applyBinary "+" (.bool bb) (.int n) = .ok (.int ((if bb then (1 : Int) else 0) + n)) ∧
    applyBinary "+" (.int n) (.bool bb) = .ok (.int (n + (if bb then (1 : Int) else 0))) ∧
    applyBinary "-" (.bool bb) (.int n) = .ok (.int ((if bb then (1 : Int) else 0) - n)) ∧
    applyBinary "*" (.bool bb) (.int n) = .ok (.int ((if bb then (1 : Int) else 0) * n)) ∧
    (n ≠ 0 → applyBinary "/" (.bool bb) (.int n) =
      .ok (.int (Int.fdiv (if bb then (1 : Int) else 0) n))) ∧
    (n ≠ 0 → applyBinary "%" (.bool bb) (.int n) =
      .ok (.int (Int.fmod (if bb then (1 : Int) else 0) n))) := by
  refine ⟨?_, ?_, ?_, ?_, ?_, ?_⟩
  · simp [applyBinary, pyNumOf, pyIntOf]
  · simp [applyBinary, pyNumOf, pyIntOf]
  · simp [applyBinary, pyNumOf, pyIntOf]
  · simp [applyBinary, pyNumOf, pyIntOf]
  · intro hn; simp [applyBinary, pyNumOf, pyIntOf, hn]
  · intro hn; simp [applyBinary, pyNumOf, pyIntOf, hn]

/-- Witness for Bool-as-numeric at concrete operands. -/
theorem bool_numeric_ops_w :
    applyBinary "/" (.bool true) (.int 2) = .ok (.int 0) ∧
    applyBinary "%" (.bool true) (.int 2) = .ok (.int 1) := by
  have h := bool_numeric_ops true 2
  exact ⟨by simpa using h.2.2.2.2.1 (by decide), by simpa using h.2.2.2.2.2 (by decide)⟩

/-- C4: stringify matches the canonical table on every value not
containing a Rite, Builtin or Entity — Void gives VOID, true ALIVE,
false DEAD, integers and floats their natural decimal form, strings
their raw characters, arrays and maps the bracketed comma-space joins —
and a float like 5.0 prints "5.0", never "5". -/
theorem stringify_matches_canonical :
    (∀ v : PVal, stringifyP v = canonicalStr v) ∧
    stringifyP (.float fiveLit) = "5.0" ∧ ("5.0" : String) ≠ "5" := by
  refine ⟨?_, rfl, by decide⟩
  intro v
  exact (stringifyP_eq_canonical_bounded (pvalSize v)).1 v (Nat.le_refl _)

/-- C5 counterexample: with a map holding keys "True" and "ALIVE",
reading m[ALIVE] returns the value under "True" (the host str() of the
Bool), not the value under the canonical stringification "ALIVE" that
the claim requires. -/
theorem map_index_host_str_cex :
    indexRead (.map [("True", .int 1), ("ALIVE", .int 2)]) (.bool true) = .ok (.int 1) ∧
    stringify (.bool true) = "ALIVE" ∧
    pyStr (.bool true) = "True" ∧
    lookupEntry "ALIVE" [("True", Value.int 1), ("ALIVE", Value.int 2)] = some (.int 2) ∧
    Value.int 1 ≠ Value.int 2 := by
  refine ⟨rfl, rfl, rfl, rfl, ?_⟩
  intro h
  injection h with h1
  omega

/-- C5 (amended): map index read and assignment use the host str() of
the index value as the key — which coincides with canonical
stringification for Int and Str keys but renders Bool and Void as
"True"/"False"/"None" rather than "ALIVE"/"DEAD"/"VOID" — while member
read and member assignment use the literal identifier verbatim. -/
theorem map_access_keys (entries : List (String × Value)) (k v : Value) (name : String) (st : St) :
    indexRead (.map entries) k =
      (match lookupEntry (pyStr k) entries with
       | some w => .ok w
       | none => .error (.rt ("Key not found in map: " ++ pyStr k))) ∧
    assignIndex (.map entries) k v = .ok (.map (setEntry (pyStr k) v entries)) ∧
    memberRead st (.map entries) name =
      (match lookupEntry name entries with
       | some w => .ok w
       | none => .error (.rt ("Key not found in map: " ++ name))) ∧
    assignMember (.map entries) name v = .ok (.map (setEntry name v entries)) ∧
    (∀ n : Int, pyStr (.int n) = stringify (.int n)) ∧
    (∀ s : String, pyStr (.str s) = stringify (.str s)) ∧
    pyStr (.bool true) = "True" ∧ pyStr (.bool false) = "False" ∧
    pyStr .void = "None" ∧ stringify (.bool true) = "ALIVE" ∧
    stringify (.bool false) = "DEAD" ∧ stringify .void = "VOID" :=
  ⟨rfl, rfl, rfl, rfl, fun _ => rfl, fun _ => rfl, rfl, rfl, rfl, rfl, rfl, rfl⟩

/-- C6: the collection builtins APPEND, PREPEND, SLICE, CONCAT, SET and
DELETE allocate a fresh collection at a fresh heap address and leave the
argument collection's cell unchanged. -/
theorem collection_builtins_non_mutating
    (h : HeapModel.Heap) (a m : Nat) (l : List HeapModel.HRef)
    (entries : List (String × HeapModel.HRef)) (v w : HeapModel.HRef)
    (si ei : Int) (k : String)
    (ha : h.arrays.get? a = some l) (hm : h.maps.get? m = some entries) :
    (HeapModel.append h (.arrRef a) v =
      .ok ({ h with arrays := h.arrays ++ [l ++ [v]] }, .arrRef h.arrays.length) ∧
     (h.arrays ++ [l ++ [v]]).get? a = some l ∧ a ≠ h.arrays.length ∧
     (h.arrays ++ [l ++ [v]]).get? h.arrays.length = some (l ++ [v])) ∧
    (HeapModel.prepend h (.arrRef a) v =
      .ok ({ h with arrays := h.arrays ++ [v :: l] }, .arrRef h.arrays.length) ∧
     (h.arrays ++ [v :: l]).get? a = some l) ∧
    (HeapModel.slice h (.arrRef a) (.prim (.int si)) (.prim (.int ei)) =
      .ok ({ h with arrays := h.arrays ++ [pySlice l si ei] }, .arrRef h.arrays.length) ∧
     (h.arrays ++ [pySlice l si ei]).get? a = some l) ∧
    (HeapModel.concat h (.arrRef a) (.arrRef a) =
      .ok ({ h with arrays := h.arrays ++ [l ++ l] }, .arrRef h.arrays.length) ∧
     (h.arrays ++ [l ++ l]).get? a = some l) ∧
    (HeapModel.setB h (.mapRef m) k w =
      .ok ({ h with maps := h.maps ++ [HeapModel.setEntryR k w entries] }, .mapRef h.maps.length) ∧
     (h.maps ++ [HeapModel.setEntryR k w entries]).get? m = some entries ∧ m ≠ h.maps.length) ∧
    (HeapModel.delete h (.mapRef m) k =
      .ok ({ h with maps := h.maps ++ [HeapModel.eraseEntryR k entries] }, .mapRef h.maps.length) ∧
     (h.maps ++ [HeapModel.eraseEntryR k entries]).get? m = some entries) := by
  have hlta : a < h.arrays.length := get_lt_of_get?_some ha
  have hltm : m < h.maps.length := get_lt_of_get?_some hm
  have ha2 : h.arrays[a]? = some l := by rw [← List.get?_eq_getElem?]; exact ha
  have hm2 : h.maps[m]? = some entries := by rw [← List.get?_eq_getElem?]; exact hm
  have hfa : ∀ tail : List (List HeapModel.HRef), (h.arrays ++ tail).get? a = some l := by
    intro tail; rw [List.get?_append hlta]; exact ha
  have hfm : ∀ tail : List (List (String × HeapModel.HRef)),
      (h.maps ++ tail).get? m = some entries := by
    intro tail; rw [List.get?_append hltm]; exact hm
  refine ⟨⟨?_, hfa _, Nat.ne_of_lt hlta, ?_⟩, ⟨?_, hfa _⟩, ⟨?_, hfa _⟩, ⟨?_, hfa _⟩,
    ⟨?_, hfm _, Nat.ne_of_lt hltm⟩, ⟨?_, hfm _⟩⟩
  · simp [HeapModel.append, ha2]
  · exact List.get?_concat_length _ _
  · simp [HeapModel.prepend, ha2]
  · simp [HeapModel.slice, ha2, pyIntOf]
  · simp [HeapModel.concat, ha2]
  · simp [HeapModel.setB, hm2]
  · simp [HeapModel.delete, hm2]

/-- Witness: APPEND on the concrete array [1, 2, 3] allocates the new
array [1, 2, 3, 4] at a fresh address while index 0 still holds
[1, 2, 3]. -/
theorem collection_builtins_non_mutating_w :
    HeapModel.append heapW (.arrRef 0) (.prim (.int 4)) =
      .ok ({ heapW with arrays := heapW.arrays ++
              [heapWCell ++ [HeapModel.HRef.prim (Value.int 4)]] },
           .arrRef 1) ∧
    (heapW.arrays ++ [heapWCell ++ [HeapModel.HRef.prim (Value.int 4)]]).get? 0 =
      some heapWCell := by
  have h := collection_builtins_non_mutating heapW 0 0
    heapWCell [("x", HeapModel.HRef.prim (Value.int 1))]
    (HeapModel.HRef.prim (Value.int 4)) (HeapModel.HRef.prim (Value.int 0)) 0 2 "y" rfl rfl
  exact ⟨h.1.1, h.1.2.1⟩

/-- C7: entity death is monotonic and die() idempotent — after die() on
an entity with any prior history, the entity is dead with the death
signal set; it remains dead with the signal set under any further
operations; await_death returns immediately; die() on a dead entity is
an exact no-op; and a repeated die() changes nothing. -/
theorem entity_death_monotonic (pre post : List EntityOp) :
    (entityDie (entitySteps pre entityInit)).dead = true ∧
    (entityDie (entitySteps pre entityInit)).eventSet = true ∧
    ((entitySteps pre entityInit).dead = true →
      entityDie (entitySteps pre entityInit) = entitySteps pre entityInit) ∧
    entityDie (entityDie (entitySteps pre entityInit)) = entityDie (entitySteps pre entityInit) ∧
    (entitySteps post (entityDie (entitySteps pre entityInit))).dead = true ∧
    (entitySteps post (entityDie (entitySteps pre entityInit))).eventSet = true ∧
    awaitDeathImmediate (entitySteps post (entityDie (entitySteps pre entityInit))) = true ∧
    entityDie (entitySteps post (entityDie (entitySteps pre entityInit))) =
      entitySteps post (entityDie (entitySteps pre entityInit)) := by
  have hu : (entitySteps pre entityInit).dead = true →
      (entitySteps pre entityInit).eventSet = true :=
    entitySteps_inv pre entityInit (by simp [entityInit])
  have hd : (entityDie (entitySteps pre entityInit)).dead = true := by
    by_cases hs : (entitySteps pre entityInit).dead <;> simp [entityDie, hs]
  have he : (entityDie (entitySteps pre entityInit)).eventSet = true := by
    by_cases hs : (entitySteps pre entityInit).dead
    · simpa [entityDie, hs] using hu hs
    · simp [entityDie, hs]
  have hpost := entitySteps_preserve post (entityDie (entitySteps pre entityInit)) hd he
  exact ⟨hd, he, fun hs => entityDie_noop _ hs, entityDie_noop _ hd,
    hpost.1, hpost.2, hpost.2, entityDie_noop _ hpost.1⟩

/-- Witness for entity monotonicity at a concrete history: a second
die() is a no-op, and death plus the set signal survive later die and
complete operations. -/
theorem entity_death_monotonic_w :
    entityDie (entitySteps [EntityOp.die] entityInit) = entitySteps [EntityOp.die] entityInit ∧
    (entitySteps [EntityOp.die, EntityOp.complete]
      (entityDie (entitySteps [] entityInit))).dead = true ∧
    awaitDeathImmediate (entitySteps [EntityOp.die, EntityOp.complete]
      (entityDie (entitySteps [] entityInit))) = true := by
  have h1 := entity_death_monotonic [EntityOp.die] []
  have h2 := entity_death_monotonic [] [EntityOp.die, EntityOp.complete]
  exact ⟨h1.2.2.1 rfl, h2.2.2.2.2.1, h2.2.2.2.2.2.2.1⟩

/-- C8: ATTEMPT/SALVAGE catches exactly the UserError (condemn) and
Runtime signals raised in the body: a normal body is passed through, a
ReturnFromRite (bequeath) or host-level signal propagates uncaught, and
on a caught error the handler runs in a fresh child scope of the scope
current at catch time in which the error name is bound to the message
string, with that parent scope restored afterwards on every handler
outcome. -/
theorem attempt_salvage_spec (fuel : Nat) (body handler : List Stmt) (errName : String)
    (st st1 : St) :
    (execList fuel body st = (.ok (), st1) →
      execS (fuel + 1) (.attemptSalvage body errName handler) st = (.ok (), st1)) ∧
    (∀ vv, execList fuel body st = (.error (.bequeath vv), st1) →
      execS (fuel + 1) (.attemptSalvage body errName handler) st = (.error (.bequeath vv), st1)) ∧
    (∀ m, execList fuel body st = (.error (.host m), st1) →
      execS (fuel + 1) (.attemptSalvage body errName handler) st = (.error (.host m), st1)) ∧
    (∀ m,
      (execList fuel body st = (.error (.rt m), st1) ∨
       execList fuel body st = (.error (.condemn m), st1)) →
      execS (fuel + 1) (.attemptSalvage body errName handler) st =
        ((execList fuel handler (attemptScope st1 errName m)).1,
         { (execList fuel handler (attemptScope st1 errName m)).2 with current := st1.current }) ∧
      scopeGet (attemptScope st1 errName m).scopes (attemptScope st1 errName m).scopes.length
        (attemptScope st1 errName m).current errName = some (.str m) ∧
      (attemptScope st1 errName m).scopes.get? (attemptScope st1 errName m).current =
        some { parent := some st1.current, vars := [(errName, .str m)], consts := [] } ∧
      (execS (fuel + 1) (.attemptSalvage body errName handler) st).2.current = st1.current) := by
  refine ⟨?_, ?_, ?_, ?_⟩
  · intro h; simp [execS, h]
  · intro vv h; simp [execS, h, catchableMsg]
  · intro m h; simp [execS, h, catchableMsg]
  · intro m h
    have hget : (attemptScope st1 errName m).scopes.get? (attemptScope st1 errName m).current =
        some { parent := some st1.current, vars := [(errName, .str m)], consts := [] } := by
      simp [attemptScope]
    have hlen : (attemptScope st1 errName m).scopes.length = st1.scopes.length + 1 := by
      simp [attemptScope]
    have hsg : scopeGet (attemptScope st1 errName m).scopes
        (attemptScope st1 errName m).scopes.length
        (attemptScope st1 errName m).current errName = some (.str m) := by
      rw [hlen]
      simp [scopeGet, attemptScope, List.getElem?_concat_length, List.lookup]
    rcases h with h | h
    · refine ⟨by simp [execS, h, catchableMsg], hsg, hget, ?_⟩
      simp [execS, h, catchableMsg]
    · refine ⟨by simp [execS, h, catchableMsg], hsg, hget, ?_⟩
      simp [execS, h, catchableMsg]

/-- Witness: a CONDEMN in the body is caught, the handler scope binds
the error name to the message, and the parent scope is restored. -/
theorem attempt_salvage_spec_w :
    execS 6 (.attemptSalvage [.condemn (.lit (.str "oops"))] "e" []) emptySt =
      (.ok (), { emptySt with
        scopes := emptySt.scopes ++ [{ parent := some 0, vars := [("e", .str "oops")], consts := [] }],
        current := 0 }) ∧
    scopeGet (attemptScope emptySt "e" "oops").scopes
      (attemptScope emptySt "e" "oops").scopes.length
      (attemptScope emptySt "e" "oops").current "e" = some (.str "oops") := by
  have hc : execList 5 [Stmt.condemn (Expr.lit (Value.str "oops"))] emptySt =
      (.error (.condemn "oops"), emptySt) := rfl
  have h := (attempt_salvage_spec 5 [.condemn (.lit (.str "oops"))] [] "e" emptySt
    emptySt).2.2.2 "oops" (Or.inr hc)
  refine ⟨?_, h.2.1⟩
  have h1 := h.1
  simpa [execList, execS, evalE, attemptScope, emptySt] using h1

/-- C9: in the wait-mode death loop over an And-composite of two
entities, the EXECUTE clause runs only when both children have died, the
composite is never dead while a child is alive, and once both children
are dead the EXECUTE clause is reachable within the scenario's
transitions. -/
theorem and_composite_death (a0 b0 : Bool) (s : AndSys)
    (hreach : AndReach (andInit a0 b0) s) :
    (s.executed = true → s.aDead = true ∧ s.bDead = true) ∧
    (s.compDead = true → s.aDead = true ∧ s.bDead = true) ∧
    (s.aDead = true → s.bDead = true →
      ∃ t, AndReach s t ∧ t.executed = true ∧ t.aDead = true ∧ t.bDead = true) := by
  have inv : (s.compDead = true → s.aDead = true ∧ s.bDead = true) ∧
      (s.executed = true → s.aDead = true ∧ s.bDead = true) := by
    induction hreach with
    | refl => simp [andInit]
    | tail hab hbc ih =>
      cases hbc with
      | childA h => exact ⟨fun hc => ⟨rfl, (ih.1 hc).2⟩, fun hc => ⟨rfl, (ih.2 hc).2⟩⟩
      | childB h => exact ⟨fun hc => ⟨(ih.1 hc).1, rfl⟩, fun hc => ⟨(ih.2 hc).1, rfl⟩⟩
      | gatherDone ha hb h => exact ⟨fun _ => ⟨ha, hb⟩, fun hc => ih.2 hc⟩
      | execRuns h he => exact ⟨fun hc => ih.1 hc, fun _ => ih.1 h⟩
  have prog : ∀ u : AndSys, u.aDead = true → u.bDead = true →
      ∃ t, AndReach u t ∧ t.executed = true ∧ t.aDead = true ∧ t.bDead = true := by
    intro u ha hb
    by_cases hc : u.compDead = true
    · by_cases hx : u.executed = true
      · exact ⟨u, Relation.ReflTransGen.refl, hx, ha, hb⟩
      · refine ⟨{ u with executed := true }, ?_, rfl, ha, hb⟩
        exact Relation.ReflTransGen.single
          (AndStep.execRuns u hc (by simpa using hx))
    · have hstep1 : AndStep u { u with compDead := true } :=
        AndStep.gatherDone u ha hb (by simpa using hc)
      by_cases hx : u.executed = true
      · exact ⟨{ u with compDead := true }, Relation.ReflTransGen.single hstep1, hx, ha, hb⟩
      · refine ⟨{ u with compDead := true, executed := true }, ?_, rfl, ha, hb⟩
        have hstep2 : AndStep { u with compDead := true }
            { u with compDead := true, executed := true } :=
          AndStep.execRuns { u with compDead := true } rfl (by simpa using hx)
        exact Relation.ReflTransGen.head hstep1 (Relation.ReflTransGen.single hstep2)
  exact ⟨inv.2, inv.1, prog s⟩

/-- Witness: from the state where both children have just died and
neither the composite nor EXECUTE has fired, the EXECUTE clause is
reached. -/
theorem and_composite_death_w :
    ∃ t, AndReach { aDead := true, bDead := true, compDead := false, executed := false } t ∧
      t.executed = true ∧ t.aDead = true ∧ t.bDead = true := by
  have h1 : AndStep (andInit false false) { andInit false false with aDead := true } :=
    AndStep.childA _ rfl
  have h2 : AndStep { andInit false false with aDead := true }
      { aDead := true, bDead := true, compDead := false, executed := false } := by
    have h := AndStep.childB { andInit false false with aDead := true } rfl
    simpa [andInit] using h
  have hr : AndReach (andInit false false)
      { aDead := true, bDead := true, compDead := false, executed := false } :=
    Relation.ReflTransGen.head h1 (Relation.ReflTransGen.single h2)
  exact (and_composite_death false false _ hr).2.2 rfl rfl

/-- C10: a rite call whose body finishes without a bequeath signal
evaluates to Void; a bequeath returns its value; and on every outcome —
normal completion, bequeath, or any propagating signal — the caller's
current scope is restored, while an arity mismatch fails Runtime
up front. -/
theorem call_rite_spec (fuel : Nat) (rname : String) (params : List String)
    (body : List Stmt) (clo : Nat) (args : List Value) (st st2 : St) :
    (args.length ≠ params.length →
      callRite (fuel + 1) rname params body clo args st =
        (.error (.rt ("Rite \x27" ++ rname ++ "\x27 expects " ++ toString params.length ++
          " arguments, got " ++ toString args.length)), st)) ∧
    (args.length = params.length →
      (execList fuel body (riteEntrySt st params args clo) = (.ok (), st2) →
        callRite (fuel + 1) rname params body clo args st =
          (.ok .void, { st2 with current := st.current })) ∧
      (∀ v, execList fuel body (riteEntrySt st params args clo) = (.error (.bequeath v), st2) →
        callRite (fuel + 1) rname params body clo args st =
          (.ok v, { st2 with current := st.current }))) ∧
    (∀ r st3, callRite (fuel + 1) rname params body clo args st = (r, st3) →
      st3.current = st.current) := by
  refine ⟨?_, ?_, ?_⟩
  · intro h; simp [callRite, h]
  · intro h
    constructor
    · intro hb; simp [callRite, h, hb]
    · intro v hb; simp [callRite, h, hb]
  · intro r st3 hcall
    by_cases h : args.length = params.length
    · rcases hE : execList fuel body (riteEntrySt st params args clo) with ⟨r1, stx⟩
      cases r1 with
      | ok u =>
        simp [callRite, h, hE] at hcall
        rw [← hcall.2]
      | error sg =>
        cases sg with
        | bequeath v =>
          simp [callRite, h, hE] at hcall
          rw [← hcall.2]
        | rt m =>
          simp [callRite, h, hE] at hcall
          rw [← hcall.2]
        | condemn m =>
          simp [callRite, h, hE] at hcall
          rw [← hcall.2]
        | host m =>
          simp [callRite, h, hE] at hcall
          rw [← hcall.2]
        | fuel =>
          simp [callRite, h, hE] at hcall
          rw [← hcall.2]
    · simp [callRite, h] at hcall
      rw [← hcall.2]

/-- Witness: a nullary rite with an empty body returns Void with the
caller's scope restored, and a unary rite called with no arguments
fails the arity check. -/
theorem call_rite_spec_w :
    callRite 2 "f" [] [] 0 [] emptySt =
      (.ok .void, { emptySt with scopes := emptySt.scopes ++ [riteScopeData [] [] 0] }) ∧
    callRite 2 "g" ["x"] [] 0 [] emptySt =
      (.error (.rt "Rite \x27g\x27 expects 1 arguments, got 0"), emptySt) := by
  constructor
  · have h := ((call_rite_spec 1 "f" [] [] 0 [] emptySt (riteEntrySt emptySt [] [] 0)).2.1 rfl).1 rfl
    simpa [riteEntrySt, emptySt] using h
  · have h := (call_rite_spec 1 "g" ["x"] [] 0 [] emptySt emptySt).1 (by decide)
    simpa using h

end Untildeath
